import Mathlib

/-!
Verification development for the rsinit boot orchestrator.

This file gives a shallow embedding, in Lean, of the parts of the rsinit
sources that the specification's claims are about:

* `src/cmdline.rs` — the boot-parameter scanner (`CmdlineOptions::from_string`),
  the per-token dispatcher (`parse_option`), and NFS root resolution
  (`parse_nfsroot`).
* `src/util.rs` — the bounded device-existence poll (`wait_for_device`).
* `src/dmverity.rs` — the dm-verity control-message construction
  (`init_header`, `prepare_dmverity`) with the repr(C) struct layouts.
* `src/mount.rs` — `mount_move` and its `umount_root`.
* `src/systemd.rs` — the shutdown path's `umount_root` (BinaryHeap based).

Rust strings are modelled as `List Char` (all inputs of interest are ASCII,
where Rust's byte-wise `str` ordering coincides with `Char` ordering).
File-system and kernel effects are passed in explicitly as environment
records; stateful extension callbacks (`FnMut` closures) are modelled as
state-threading functions `σ → key → value → σ × Option error`.
-/

set_option maxRecDepth 8192

/-- Rust `&str` / `String`, modelled as a list of characters. -/
abbrev Str := List Char

instance exceptDecEq {ε α : Type} [DecidableEq ε] [DecidableEq α] : DecidableEq (Except ε α) :=
  fun x y =>
    match x, y with
    | .ok a, .ok b =>
      if h : a = b then .isTrue (by rw [h]) else .isFalse (by intro hc; cases hc; exact h rfl)
    | .error a, .error b =>
      if h : a = b then .isTrue (by rw [h]) else .isFalse (by intro hc; cases hc; exact h rfl)
    | .ok _, .error _ => .isFalse (by intro hc; cases hc)
    | .error _, .ok _ => .isFalse (by intro hc; cases hc)

/-- Rust `cmdline[s..e]` on the full command line (byte indices become
character indices; all inputs considered are ASCII). -/
def sliceL (l : Str) (s e : Nat) : Str := (l.drop s).take (e - s)

/-- Rust `str::split_once(c)`: split at the first occurrence of `c`,
returning the parts before and after it. -/
def splitOnceL (c : Char) : Str → Option (Str × Str)
  | [] => none
  | x :: xs =>
    if x = c then some ([], xs)
    else
      match splitOnceL c xs with
      | none => none
      | some (a, b) => some (x :: a, b)

/-- Rust `str::rsplit_once(c)`: split at the last occurrence of `c`. -/
def rsplitOnceL (c : Char) (l : Str) : Option (Str × Str) :=
  match splitOnceL c l.reverse with
  | none => none
  | some (a, b) => some (b.reverse, a.reverse)

/-- Rust `str::split(c)` (keeps empty items, `""` yields one empty item). -/
def splitCharL (c : Char) : Str → List Str
  | [] => [[]]
  | x :: xs =>
    let r := splitCharL c xs
    if x = c then [] :: r
    else
      match r with
      | [] => [[x]]
      | y :: ys => (x :: y) :: ys

/-- Strip one trailing carriage return, as Rust `str::lines` does. -/
def stripCR (s : Str) : Str :=
  if s.getLast? = some '\r' then s.dropLast else s

/-- Rust `str::lines`: split on newline, dropping a final empty piece
produced by a trailing newline. -/
def linesL (l : Str) : List Str :=
  if l = [] then []
  else
    let ps := splitCharL '\n' l
    let ps := if ps.getLast? = some [] then ps.dropLast else ps
    ps.map stripCR

/-- Rust `str::starts_with(p)` for string prefixes. -/
def startsWithL (p s : Str) : Bool := p.isPrefixOf s

/-- Rust `Ord` on `&str` restricted to ASCII: lexicographic on characters. -/
def ltStr : Str → Str → Bool
  | [], [] => false
  | [], _ :: _ => true
  | _ :: _, [] => false
  | a :: as_, b :: bs =>
    if a < b then true
    else if a = b then ltStr as_ bs
    else false

/-! ## `src/cmdline.rs` — data model -/

/-- The parse-time error type of `cmdline.rs` (`Box<dyn Error>` messages,
abstracted to their provenance; the exact message text is not modelled). -/
inductive PErr where
  /-- `ensure_value`: "Cmdline option '{key}' must have an argument!" -/
  | missingValue (key : Str)
  /-- an extension handler returned an error -/
  | cbFail (msg : Str)
  /-- `parse_nfsroot`: "Missing nfsroot command-line option!" -/
  | nfsrootMissing
  /-- `parse_nfsroot`: "Failed to split out path from nfsroot parameter" -/
  | nfsrootSplitFailed
  /-- `read_file("/proc/net/pnp")` failed -/
  | pnpReadFailed
deriving DecidableEq

/-- `CmdlineOptions` (cmdline.rs).  `rootfsflags` is an `MsFlags` bitmask in
the source, whose only reachable values here are `MS_RDONLY` (the default)
and empty — `ro`/`rw` insert/remove that single bit — so it is modelled as
the Boolean "read-only bit is set".  The `callbacks` field is kept outside
the record (it is ignored by the struct's own `PartialEq`) and passed to the
parsing functions explicitly. -/
structure CmdlineOptions where
  root : Option Str
  rootfstype : Option Str
  rootflags : Option Str
  rootfsflags : Bool
  nfsroot : Option Str
  init : Str
  cleanup : Bool
deriving DecidableEq

/-- `CmdlineOptions::default()`: read-only bit set, init `/sbin/init`. -/
def defaultOptions : CmdlineOptions :=
  { root := none
    rootfstype := none
    rootflags := none
    rootfsflags := true
    nfsroot := none
    init := ("/sbin/init".toList)
    cleanup := true }

/-- A registered cmdline extension handler (`Box<CmdlineCallback>`), a
stateful `FnMut(&str, Option<&str>) -> Result<()>` closure: it threads its
captured state `σ` and may fail. -/
def CmdlineCB (σ : Type) := σ → Str → Option Str → σ × Option PErr

/-- The handler loop in `parse_option`'s default arm:
`for cb in callbacks { cb(key, value)? }` — each handler runs in turn and
the first error is propagated immediately by `?`. -/
def runCallbacks {σ : Type} : List (CmdlineCB σ) → Str → Option Str → σ → σ × Option PErr
  | [], _, _, s => (s, none)
  | cb :: rest, key, value, s =>
    match cb s key value with
    | (s1, some e) => (s1, some e)
    | (s1, none) => runCallbacks rest key value s1

/-- `parse_option` (cmdline.rs): dispatch one completed `key[=value]` token.
Recognized keys update the options (`ensure_value` failing when a required
value is absent); any other key is offered to the extension handlers. -/
def parse_option {σ : Type} (cbs : List (CmdlineCB σ)) (key : Str) (value : Option Str)
    (options : CmdlineOptions) (s : σ) : σ × Except PErr CmdlineOptions :=
  if key = ("root".toList) then
    match value with
    | some v => (s, .ok { options with root := some v })
    | none => (s, .error (.missingValue key))
  else if key = ("rootfstype".toList) then
    match value with
    | some v => (s, .ok { options with rootfstype := some v })
    | none => (s, .error (.missingValue key))
  else if key = ("rootflags".toList) then
    (s, .ok { options with rootflags := value })
  else if key = ("ro".toList) then
    (s, .ok { options with rootfsflags := true })
  else if key = ("rw".toList) then
    (s, .ok { options with rootfsflags := false })
  else if key = ("nfsroot".toList) then
    match value with
    | some v => (s, .ok { options with nfsroot := some v })
    | none => (s, .error (.missingValue key))
  else if key = ("init".toList) then
    match value with
    | some v => (s, .ok { options with init := v })
    | none => (s, .error (.missingValue key))
  else
    match runCallbacks cbs key value s with
    | (s1, some e) => (s1, .error e)
    | (s1, none) => (s1, .ok options)

/-! ## `src/cmdline.rs` — the character scanner of `from_string` -/

/-- The mutable scanner state of `CmdlineOptions::from_string`: whether the
current token already has a `=`, whether we are inside quotes, the key slice
captured so far, and the start offset of the current piece. -/
structure ScanSt where
  hv : Bool
  q : Bool
  key : Str
  start : Nat
deriving DecidableEq

/-- Initial scanner state (`have_value = false`, `quoted = false`,
`key = &cmdline[0..0]`, `start = 0`). -/
def initScanSt : ScanSt := { hv := false, q := false, key := [], start := 0 }

/-- One iteration of `from_string`'s `for (i, c) in cmdline.char_indices()`
body: returns the completed token, if this character finishes one, and the
next scanner state (the `skip` flag of the source becomes the `start := i+1`
updates). -/
def stepChar (full : Str) (i : Nat) (c : Char) (st : ScanSt) : Option (Str × Option Str) × ScanSt :=
  if c = '=' then
    if st.hv = false then
      (none, { hv := true, q := st.q, key := sliceL full st.start i, start := i + 1 })
    else
      (none, { st with hv := true })
  else if c = '"' then
    (none, { st with q := !st.q, start := i + 1 })
  else if c = ' ' ∨ c = '\n' then
    if st.q = false then
      let key := if st.hv then st.key else sliceL full st.start i
      let tok :=
        if key = [] then none
        else some (key, if st.hv then some (sliceL full st.start i) else none)
      (tok, { hv := false, q := st.q, key := [], start := i + 1 })
    else
      (none, st)
  else
    (none, st)

/-- The scanning loop of `from_string`: feeds each completed token to
`parse_option`, aborting on the first error (the `?` in the source). -/
def fromStringScan {σ : Type} (cbs : List (CmdlineCB σ)) (full : Str) :
    Str → Nat → ScanSt → CmdlineOptions → σ → σ × Except PErr CmdlineOptions
  | [], _, _, o, s => (s, .ok o)
  | c :: rest, i, st, o, s =>
    match stepChar full i c st with
    | (some (k, v), st1) =>
      match parse_option cbs k v o s with
      | (s1, .error e) => (s1, .error e)
      | (s1, .ok o1) => fromStringScan cbs full rest (i + 1) st1 o1 s1
    | (none, st1) => fromStringScan cbs full rest (i + 1) st1 o s

/-- The sequence of completed tokens the scanner emits, as a pure function
(same traversal as `fromStringScan`, without the `parse_option` calls). -/
def tokenizeLoop (full : Str) : Str → Nat → ScanSt → List (Str × Option Str)
  | [], _, _ => []
  | c :: rest, i, st =>
    match stepChar full i c st with
    | (some t, st1) => t :: tokenizeLoop full rest (i + 1) st1
    | (none, st1) => tokenizeLoop full rest (i + 1) st1

/-- All tokens of a command line, in scan order. -/
def tokenize (full : Str) : List (Str × Option Str) := tokenizeLoop full full 0 initScanSt

/-- Processing a token list through `parse_option`, aborting on the first
error: the token-level view of `fromStringScan`. -/
def processTokens {σ : Type} (cbs : List (CmdlineCB σ)) :
    List (Str × Option Str) → CmdlineOptions → σ → σ × Except PErr CmdlineOptions
  | [], o, s => (s, .ok o)
  | t :: ts, o, s =>
    match parse_option cbs t.1 t.2 o s with
    | (s1, .error e) => (s1, .error e)
    | (s1, .ok o1) => processTokens cbs ts o1 s1

/-- First `bootserver` value in `/proc/net/pnp` (the `for line in pnp.lines()`
loop of `parse_nfsroot`, which breaks at the first match). -/
def findBootserver : List Str → Option Str
  | [] => none
  | l :: ls =>
    match splitOnceL ' ' l with
    | none => findBootserver ls
    | some (k, v) => if k = ("bootserver".toList) then some v else findBootserver ls

/-- `parse_nfsroot` (cmdline.rs).  `pnp` is the outcome of
`read_file("/proc/net/pnp")`, consulted only when the nfsroot value has no
host prefix. -/
def parse_nfsroot (pnp : Except Str Str) (options : CmdlineOptions) : Except PErr CmdlineOptions :=
  match options.nfsroot with
  | none => .error .nfsrootMissing
  | some nfsrootOption =>
    let (nfsroot, rootflags) :=
      match splitOnceL ',' nfsrootOption with
      | none => (nfsrootOption, ("nolock".toList))
      | some (root, flags) => (root, ("nolock,".toList) ++ flags)
    let rootflags := rootflags ++ (",addr=".toList)
    let step : Except PErr (Str × Str) :=
      if ':' ∈ nfsroot then
        match splitOnceL ':' nfsroot with
        | none => .error .nfsrootSplitFailed
        | some (bootserver, _) => .ok (nfsroot, rootflags ++ bootserver)
      else
        match pnp with
        | .error _ => .error .pnpReadFailed
        | .ok content =>
          match findBootserver (linesL content) with
          | none => .ok (nfsroot, rootflags)
          | some v => .ok (v ++ ':' :: nfsroot, rootflags ++ v)
    match step with
    | .error e => .error e
    | .ok (nfsroot1, rootflags1) =>
      .ok { options with
              root := some nfsroot1
              rootflags := some rootflags1
              rootfstype := some ("nfs".toList) }

/-- `CmdlineOptions::from_string`: scan the whole command line, then run NFS
resolution when the parsed options indicate an NFS root. -/
def from_string {σ : Type} (cbs : List (CmdlineCB σ)) (pnp : Except Str Str)
    (cmdline : Str) (s : σ) : σ × Except PErr CmdlineOptions :=
  match fromStringScan cbs cmdline cmdline 0 initScanSt defaultOptions s with
  | (s1, .error e) => (s1, .error e)
  | (s1, .ok o) =>
    if o.root = some ("/dev/nfs".toList) ∨ o.rootfstype = some ("nfs".toList) then
      (s1, parse_nfsroot pnp o)
    else
      (s1, .ok o)

example :
    (from_string (σ := Unit) [] (.error []) (("root=/dev/mmcblk0p1 rw\n").toList) ()).2 =
      .ok { defaultOptions with root := some ("/dev/mmcblk0p1".toList), rootfsflags := false } := by
  decide

example :
    (from_string (σ := Unit) [] (.error [])
        (("root=/dev/nfs nfsroot=192.168.42.23:/path/to/nfsroot,v3,tcp ip=dhcp rootwait ro\n").toList) ()).2 =
      .ok { defaultOptions with
              root := some (("192.168.42.23:/path/to/nfsroot").toList)
              rootflags := some (("nolock,v3,tcp,addr=192.168.42.23").toList)
              rootfstype := some ("nfs".toList)
              nfsroot := some (("192.168.42.23:/path/to/nfsroot,v3,tcp").toList) } := by
  decide

/-! ## `src/util.rs` — `wait_for_device` -/

/-- The timeout error of `wait_for_device`. -/
inductive WaitErr where
  | timeout
deriving DecidableEq

/-- The polling loop of `wait_for_device`: `ex i` is whether
`path.exists()` holds at the i-th poll.  Returns the result, the number of
existence polls performed, and the milliseconds slept (5 ms after every
failed poll, `Duration::from_millis(5)` in the source). -/
def waitAux (ex : Nat → Bool) (i : Nat) : Nat → Except WaitErr Unit × Nat × Nat
  | 0 => (.error .timeout, 0, 0)
  | n + 1 =>
    if ex i then (.ok (), 1, 0)
    else
      let r := waitAux ex (i + 1) n
      (r.1, r.2.1 + 1, r.2.2 + 5)

/-- `wait_for_device` (util.rs): up to 1000 existence polls, sleeping 5 ms
between consecutive polls. -/
def wait_for_device (ex : Nat → Bool) : Except WaitErr Unit × Nat × Nat :=
  waitAux ex 0 1000

/-! ## `src/dmverity.rs` — repr(C) layouts and message construction -/

/-- Round `n` up to a multiple of the alignment `a`. -/
def alignTo (n a : Nat) : Nat := ((n + a - 1) / a) * a

/-- Size of a `#[repr(C)]` struct from its ordered field (size, alignment)
pairs: fields are laid out at aligned offsets, and the total size is rounded
up to the largest field alignment. -/
def reprCSize (fields : List (Nat × Nat)) : Nat :=
  let maxAlign := fields.foldl (fun m f => max m f.2) 1
  alignTo (fields.foldl (fun off f => alignTo off f.2 + f.1) 0) maxAlign

/-- `DM_MAX_TYPE_NAME` -/
def DM_MAX_TYPE_NAME : Nat := 16
/-- `DM_NAME_LEN` -/
def DM_NAME_LEN : Nat := 128
/-- `DM_UUID_LEN` -/
def DM_UUID_LEN : Nat := 129
/-- `DM_READONLY_FLAG` -/
def DM_READONLY_FLAG : Nat := 1
/-- `DM_VERSION_MAJOR` -/
def DM_VERSION_MAJOR : Nat := 4

/-- Field layout of `struct DmIoctl`: `version: [u32; 3]`, seven further
`u32` fields, `dev: dev_t` (u64), `name: [u8; 128]`, `uuid: [u8; 129]`,
`data: [u8; 7]`. -/
def dmIoctlFields : List (Nat × Nat) :=
  [(12, 4), (4, 4), (4, 4), (4, 4), (4, 4), (4, 4), (4, 4), (4, 4), (8, 8),
   (DM_NAME_LEN, 1), (DM_UUID_LEN, 1), (7, 1)]

/-- `size_of::<DmIoctl>()` -/
def sizeOfDmIoctl : Nat := reprCSize dmIoctlFields

/-- Field layout of `struct DmTargetSpec`: two `u64`, two `u32`,
`target_type: [u8; 16]`. -/
def dmTargetSpecFields : List (Nat × Nat) := [(8, 8), (8, 8), (4, 4), (4, 4), (DM_MAX_TYPE_NAME, 1)]

/-- `size_of::<DmTargetSpec>()` -/
def sizeOfDmTargetSpec : Nat := reprCSize dmTargetSpecFields

/-- `size_of::<DmTableLoad>()`: header, one target spec, `params: [u8; 1024]`. -/
def sizeOfDmTableLoad : Nat := reprCSize [(sizeOfDmIoctl, 8), (sizeOfDmTargetSpec, 8), (1024, 1)]

example : sizeOfDmIoctl = 312 := by decide
example : sizeOfDmTargetSpec = 40 := by decide
example : sizeOfDmTableLoad = 1376 := by decide

/-- `struct DmIoctl`, with byte buffers as lists of byte values. -/
structure DmIoctlM where
  version0 : Nat
  version1 : Nat
  version2 : Nat
  data_size : Nat
  data_start : Nat
  target_count : Nat
  open_count : Nat
  flags : Nat
  event_nr : Nat
  padding : Nat
  dev : Nat
  name : List Nat
  uuid : List Nat
  data : List Nat
deriving DecidableEq

/-- `DmIoctl::default()`: all numeric fields zero, buffers zero-filled. -/
def dmIoctlDefault : DmIoctlM :=
  { version0 := 0, version1 := 0, version2 := 0, data_size := 0, data_start := 0
    target_count := 0, open_count := 0, flags := 0, event_nr := 0, padding := 0, dev := 0
    name := List.replicate DM_NAME_LEN 0
    uuid := List.replicate DM_UUID_LEN 0
    data := List.replicate 7 0 }

/-- `struct DmTargetSpec`. -/
structure DmTargetSpecM where
  sector_start : Nat
  length : Nat
  status : Nat
  next : Nat
  target_type : List Nat
deriving DecidableEq

/-- One dm control call issued by `prepare_dmverity`, with the message it
carries: `DM_DEV_CREATE`, `DM_TABLE_LOAD` (header, target spec, parameter
buffer), or `DM_DEV_SUSPEND`. -/
inductive DmMsg where
  | create (header : DmIoctlM)
  | load (header : DmIoctlM) (spec : DmTargetSpecM) (params : List Nat)
  | suspend (header : DmIoctlM)
deriving DecidableEq

/-- Errors (and the one possible panic) of the dm-verity path. -/
inductive DmErr where
  /-- `wait_for_device` timed out -/
  | timeout
  /-- `read_file("/verity-params")` failed -/
  | readFailed
  /-- "Failed to open /dev/mapper/control" -/
  | openFailed
  /-- "Getrandom failed" -/
  | getrandomFailed
  /-- `u32::try_from` overflow -/
  | convFailed
  /-- "Failed to parse 'VERITY_DATA_SECTORS=..." -/
  | parseSectorsFailed
  /-- "Failed to create dm device" -/
  | createFailed
  /-- "Failed to load dm table" -/
  | loadFailed
  /-- "Failed to suspend dm device" -/
  | suspendFailed
  /-- a fixed-buffer copy was attempted with an over-long source:
  `buf[..src.len()].copy_from_slice(src)` panics -/
  | panicked
deriving DecidableEq

/-- `u32::try_from(n)`. -/
def u32TryFrom (n : Nat) : Option Nat := if n < 4294967296 then some n else none

/-- `buf[..src.len()].copy_from_slice(src)` on a fixed-size buffer: the copy
succeeds (left-aligned, rest of the buffer kept) only when the source fits;
otherwise the slicing panics. -/
def copyPrefix (buf src : List Nat) : Option (List Nat) :=
  if src.length ≤ buf.length then some (src ++ buf.drop src.length) else none

/-- String bytes (ASCII). -/
def strBytes (s : Str) : List Nat := s.map Char.toNat

/-- One lowercase hex digit. -/
def hexDigit (n : Nat) : Char := if n < 10 then Char.ofNat (48 + n) else Char.ofNat (87 + n)

/-- `format!("{:02x}", x)` for a byte. -/
def hexByte (n : Nat) : Str := [hexDigit (n % 256 / 16), hexDigit (n % 16)]

/-- `root_device.rsplit_once('/').unwrap_or(("", root_device)).1`. -/
def basename (s : Str) : Str :=
  match rsplitOnceL '/' s with
  | none => s
  | some (_, after) => after

/-- `nix::sys::stat::minor` for a 64-bit `dev_t`. -/
def dmMinor (dev : Nat) : Nat := ((dev >>> 12) &&& 0xffffff00) ||| (dev &&& 0xff)

/-- `str::parse::<u64>()`: optional sign-free decimal (a single leading `+`
is accepted), failing on empty input, non-digits, or overflow. -/
def parseU64 (s : Str) : Option Nat :=
  let t := match s with
    | '+' :: rest => rest
    | other => other
  if t = [] then none
  else if t.all (fun c => 48 ≤ c.toNat ∧ c.toNat ≤ 57) then
    let n := t.foldl (fun acc c => acc * 10 + (c.toNat - 48)) 0
    if n < 18446744073709551616 then some n else none
  else none

/-- The seven values read from `/verity-params`. -/
structure VerityParams where
  data_blocks : Str
  data_sectors : Str
  data_block_size : Str
  hash_block_size : Str
  hash_algorithm : Str
  salt : Str
  root_hash : Str
deriving DecidableEq

/-- One line of the `/verity-params` `KEY=VALUE` loop. -/
def parseVerityLine (vp : VerityParams) (line : Str) : VerityParams :=
  match splitOnceL '=' line with
  | none => vp
  | some (key, value) =>
    if key = ("VERITY_DATA_BLOCKS".toList) then { vp with data_blocks := value }
    else if key = ("VERITY_DATA_SECTORS".toList) then { vp with data_sectors := value }
    else if key = ("VERITY_DATA_BLOCK_SIZE".toList) then { vp with data_block_size := value }
    else if key = ("VERITY_HASH_BLOCK_SIZE".toList) then { vp with hash_block_size := value }
    else if key = ("VERITY_HASH_ALGORITHM".toList) then { vp with hash_algorithm := value }
    else if key = ("VERITY_SALT".toList) then { vp with salt := value }
    else if key = ("VERITY_ROOT_HASH".toList) then { vp with root_hash := value }
    else vp

/-- Parse the whole `/verity-params` content (every variable starts out as
the empty string). -/
def parseVerityParams (content : Str) : VerityParams :=
  (linesL content).foldl parseVerityLine
    { data_blocks := [], data_sectors := [], data_block_size := [], hash_block_size := []
      hash_algorithm := [], salt := [], root_hash := [] }

/-- The dm-verity load-table parameter string:
`"1 <dev> <dev> <dbs> <hbs> <db> <db> <alg> <hash> <salt> 1 ignore_zero_blocks\0"`. -/
def tableString (root_device : Str) (vp : VerityParams) : Str :=
  ("1 ".toList) ++ root_device ++ ' ' :: root_device ++
    ' ' :: vp.data_block_size ++ ' ' :: vp.hash_block_size ++
    ' ' :: vp.data_blocks ++ ' ' :: vp.data_blocks ++
    ' ' :: vp.hash_algorithm ++ ' ' :: vp.root_hash ++ ' ' :: vp.salt ++
    (" 1 ignore_zero_blocks".toList) ++ ['\x00']

/-- `init_header` (dmverity.rs): set the ABI version, the total data size,
`data_start = size_of::<DmIoctl>()`, the flags, and copy the UUID bytes into
the fixed 129-byte uuid field. -/
def init_header (header : DmIoctlM) (size flags : Nat) (uuid : List Nat) : Except DmErr DmIoctlM :=
  match u32TryFrom sizeOfDmIoctl with
  | none => .error .convFailed
  | some ds =>
    match copyPrefix header.uuid uuid with
    | none => .error .panicked
    | some ubuf =>
      .ok { header with
              version0 := DM_VERSION_MAJOR
              data_size := size
              data_start := ds
              flags := flags
              uuid := ubuf }

/-- The environment `prepare_dmverity` interacts with: the `/verity-params`
file, the root device node, `/dev/mapper/control`, the random source, and
the outcomes of the three ioctl calls (`suspendDev` is the `dev` identifier
the kernel writes back on `DM_DEV_SUSPEND`). -/
structure DmEnv where
  verityParamsExists : Bool
  deviceExistsAt : Nat → Bool
  verityParamsRead : Except Str Str
  controlOpenOk : Bool
  randomOk : Bool
  randomBytes : List Nat
  createOk : Bool
  loadOk : Bool
  suspendOk : Bool
  suspendDev : Nat

/-- `prepare_dmverity` (dmverity.rs).  Returns whether the strategy applied,
the (possibly rewritten) options, and the control messages issued, or the
first error encountered (`.panicked` for an unchecked fixed-buffer copy
overflow). -/
def prepare_dmverity (env : DmEnv) (options : CmdlineOptions) :
    Except DmErr (Bool × CmdlineOptions × List DmMsg) :=
  if env.verityParamsExists = false then .ok (false, options, [])
  else
    match options.root with
    | none => .ok (false, options, [])
    | some root_device =>
      if options.rootfstype = some ("nfs".toList) ∨ options.rootfstype = some ("9p".toList) then
        .ok (false, options, [])
      else
        match (wait_for_device env.deviceExistsAt).1 with
        | .error _ => .error .timeout
        | .ok _ =>
          match env.verityParamsRead with
          | .error _ => .error .readFailed
          | .ok content =>
            let vp := parseVerityParams content
            if env.controlOpenOk = false then .error .openFailed
            else if env.randomOk = false then .error .getrandomFailed
            else
              let rand := ((env.randomBytes.map (· % 256)) ++ List.replicate 16 0).take 16
              let uuidStr := ("rsinit-verity-root-".toList) ++
                rand.foldl (fun acc b => acc ++ hexByte b) [] ++ '-' :: basename root_device
              let len := min uuidStr.length (DM_UUID_LEN - 1)
              let uuid := (strBytes uuidStr).take len
              match u32TryFrom sizeOfDmIoctl with
              | none => .error .convFailed
              | some sz1 =>
                match init_header dmIoctlDefault sz1 0 uuid with
                | .error e => .error e
                | .ok hdr0 =>
                  match copyPrefix hdr0.name (strBytes (("verity-rootfs".toList) ++ ['\x00'])) with
                  | none => .error .panicked
                  | some nbuf =>
                    let createData := { hdr0 with name := nbuf }
                    if env.createOk = false then .error .createFailed
                    else
                      match u32TryFrom sizeOfDmTableLoad with
                      | none => .error .convFailed
                      | some sz2 =>
                        match init_header dmIoctlDefault sz2 DM_READONLY_FLAG uuid with
                        | .error e => .error e
                        | .ok hdr1 =>
                          let hdr1 := { hdr1 with target_count := 1 }
                          match parseU64 vp.data_sectors with
                          | none => .error .parseSectorsFailed
                          | some secs =>
                            match copyPrefix (List.replicate DM_MAX_TYPE_NAME 0)
                                (strBytes (("verity".toList) ++ ['\x00'])) with
                            | none => .error .panicked
                            | some tbuf =>
                              let spec : DmTargetSpecM :=
                                { sector_start := 0, length := secs, status := 0, next := 0
                                  target_type := tbuf }
                              match copyPrefix (List.replicate 1024 0)
                                  (strBytes (tableString root_device vp)) with
                              | none => .error .panicked
                              | some pbuf =>
                                if env.loadOk = false then .error .loadFailed
                                else
                                  match u32TryFrom sizeOfDmIoctl with
                                  | none => .error .convFailed
                                  | some sz3 =>
                                    match init_header dmIoctlDefault sz3 0 uuid with
                                    | .error e => .error e
                                    | .ok hdr2 =>
                                      if env.suspendOk = false then .error .suspendFailed
                                      else
                                        let suspendData := { hdr2 with dev := env.suspendDev }
                                        .ok (true,
                                          { options with
                                              root := some (("/dev/dm-".toList) ++
                                                Nat.toDigits 10 (dmMinor env.suspendDev)) },
                                          [.create createData, .load hdr1 spec pbuf,
                                           .suspend suspendData])


/-! ## `src/mount.rs` — `mount_move` -/

/-- The two externally visible actions of `mount_move`, in the order they
are attempted. -/
inductive MntAction where
  | moveCall
  | removeCall
deriving DecidableEq

/-- Outcomes of the `mount(2)` move call and of `remove_dir`. -/
structure MoveEnv where
  mountResult : Except Str Unit
  removeResult : Except Str Unit

/-- `mount_move` (mount.rs): issue the `MS_MOVE` mount; on failure return
the annotated error (the `?`), otherwise remove the source directory when
`cleanup` is set.  The action trace records which system calls were made. -/
def mount_move (env : MoveEnv) (src dst : Str) (cleanup : Bool) :
    Except Str Unit × List MntAction :=
  match env.mountResult with
  | .error e =>
    (.error (("Failed to move mount ".toList) ++ src ++ (" -> ".toList) ++ dst ++
      (": ".toList) ++ e), [.moveCall])
  | .ok _ =>
    if cleanup then
      match env.removeResult with
      | .error e => (.error e, [.moveCall, .removeCall])
      | .ok _ => (.ok (), [.moveCall, .removeCall])
    else (.ok (), [.moveCall])

/-! ## `umount_root` — systemd.rs (BinaryHeap) and mount.rs (sort + pop) -/

/-- The `/oldroot`-prefixed mountpoints of a `/proc/self/mountinfo` text, in
file order: for each line, field 5 (`line.split(' ').nth(4)`) is the
mountpoint, kept when it starts with `/oldroot`. -/
def mountinfoPoints (data : Str) : List Str :=
  (linesL data).foldl
    (fun acc line =>
      match (splitCharL ' ' line).get? 4 with
      | none => acc
      | some mountpoint =>
        if startsWithL ("/oldroot".toList) mountpoint then acc ++ [mountpoint] else acc)
    []

/-- Rust `BinaryHeap` sift-up after appending at `pos`: swap the new element
with its parent while it is strictly greater.  The fuel argument only bounds
the recursion (each step moves to the parent index `(pos - 1) / 2 < pos`, so
`pos` itself is enough fuel); it never changes the result. -/
def siftUpFuel : Nat → List Str → Nat → List Str
  | 0, l, _ => l
  | fuel + 1, l, pos =>
    if pos = 0 then l
    else
      let parent := (pos - 1) / 2
      if ltStr (l.getD parent []) (l.getD pos []) then
        siftUpFuel fuel ((l.set pos (l.getD parent [])).set parent (l.getD pos [])) parent
      else l

/-- Sift-up entry point. -/
def siftUp (l : List Str) (pos : Nat) : List Str := siftUpFuel pos l pos

/-- Rust `BinaryHeap::push`: append, then sift up. -/
def heapPush (l : List Str) (x : Str) : List Str := siftUp (l ++ [x]) l.length

/-- The unmount order of the shutdown path's `umount_root` (systemd.rs):
every `/oldroot` mountpoint is pushed into a `BinaryHeap`, and the heap is
then consumed with `for mountpoint in mounts`, i.e. in the order of the
heap's underlying array — `BinaryHeap`'s `IntoIterator` does not sort. -/
def systemd_umount_order (data : Str) : List Str :=
  (mountinfoPoints data).foldl heapPush []

/-- Stable insertion into an ascending list (Rust `Vec::sort` is an
ascending stable sort; any correct model of it gives the same list). -/
def insertAsc (x : Str) : List Str → List Str
  | [] => [x]
  | y :: ys => if ltStr y x then y :: insertAsc x ys else x :: y :: ys

/-- Ascending sort. -/
def sortAsc (l : List Str) : List Str := l.foldr insertAsc []

/-- The unmount order of mount.rs's `umount_root`: `mounts.sort()` ascending
and then `while let Some(m) = mounts.pop()`, i.e. descending order. -/
def mount_umount_order (data : Str) : List Str := (sortAsc (mountinfoPoints data)).reverse

/-- A list is in strictly descending path order (each element is greater
than the next), so every child path is listed before its parent. -/
def descendingB : List Str → Bool
  | [] => true
  | [_] => true
  | a :: b :: rest => ltStr b a && descendingB (b :: rest)

/-! ## Supporting lemmas on `splitOnceL` -/

theorem splitOnceL_of_not_mem {c : Char} {l : Str} (h : c ∉ l) : splitOnceL c l = none := by
  induction l with
  | nil => rfl
  | cons x xs ih =>
    have hx : ¬ x = c := by
      intro hxc
      exact h (hxc ▸ List.mem_cons_self x xs)
    have hxs : c ∉ xs := fun hm => h (List.mem_cons_of_mem _ hm)
    simp only [splitOnceL, if_neg hx, ih hxs]

theorem splitOnceL_append {c : Char} {l1 l2 : Str} (h : c ∉ l1) :
    splitOnceL c (l1 ++ c :: l2) = some (l1, l2) := by
  induction l1 with
  | nil => simp [splitOnceL]
  | cons x xs ih =>
    have hx : ¬ x = c := by
      intro hxc
      exact h (hxc ▸ List.mem_cons_self x xs)
    have hxs : c ∉ xs := fun hm => h (List.mem_cons_of_mem _ hm)
    simp only [List.cons_append, splitOnceL, if_neg hx, List.append_eq, ih hxs]

/-- C5: with a host prefix (`host:path[,opts]`), NFS resolution rewrites
`root` to `host:path`, `root_fs_type` to `nfs`, and the mount flags to
`nolock[,opts],addr=host`, reusing the host prefix verbatim as the `addr=`
value; in particular the claim's example command line parses as stated.  The
first conjunct is the `host:path,opts` form, the second the `host:path` form
(no options), the third the concrete example through `from_string`. -/
theorem c5_nfs_host_rewrite
    (pnp : Except Str Str) (o o2 : CmdlineOptions) (host path opts : Str)
    (hnfs : o.nfsroot = some (host ++ ':' :: (path ++ ',' :: opts)))
    (hnfs2 : o2.nfsroot = some (host ++ ':' :: path))
    (hc1 : ':' ∉ host) (hc2 : ',' ∉ host) (hc3 : ',' ∉ path) :
    parse_nfsroot pnp o =
      .ok { o with
              root := some (host ++ ':' :: path)
              rootflags := some (("nolock,".toList) ++ opts ++ (",addr=".toList) ++ host)
              rootfstype := some ("nfs".toList) } ∧
    parse_nfsroot pnp o2 =
      .ok { o2 with
              root := some (host ++ ':' :: path)
              rootflags := some (("nolock,addr=".toList) ++ host)
              rootfstype := some ("nfs".toList) } ∧
    (from_string (σ := Unit) [] (.error [])
        (("root=/dev/nfs nfsroot=192.168.42.23:/path,v3,tcp\n").toList) ()).2 =
      .ok { defaultOptions with
              root := some (("192.168.42.23:/path").toList)
              rootflags := some (("nolock,v3,tcp,addr=192.168.42.23").toList)
              rootfstype := some ("nfs".toList)
              nfsroot := some (("192.168.42.23:/path,v3,tcp").toList) } := by
  have hcol : (':' : Char) ∈ host ++ ':' :: path := by
    exact List.mem_append_right _ (List.mem_cons_self _ _)
  have hsplitColon : splitOnceL ':' (host ++ ':' :: path) = some (host, path) :=
    splitOnceL_append hc1
  have hnotmem : (',' : Char) ∉ host ++ ':' :: path := by
    intro hm
    rcases List.mem_append.mp hm with hmem | hmem
    · exact hc2 hmem
    · rcases List.mem_cons.mp hmem with heq | hmem
      · exact absurd heq (by decide)
      · exact hc3 hmem
  refine ⟨?_, ?_, by decide⟩
  · have hsplit : splitOnceL ',' (host ++ ':' :: (path ++ ',' :: opts)) =
        some (host ++ ':' :: path, opts) := by
      have hshape : host ++ ':' :: (path ++ ',' :: opts) = (host ++ ':' :: path) ++ ',' :: opts := by
        simp
      rw [hshape]
      exact splitOnceL_append hnotmem
    simp only [parse_nfsroot, hnfs, hsplit, if_pos hcol, hsplitColon, List.append_assoc,
      List.cons_append, List.nil_append]
  · have hsplit : splitOnceL ',' (host ++ ':' :: path) = none := splitOnceL_of_not_mem hnotmem
    simp only [parse_nfsroot, hnfs2, hsplit, if_pos hcol, hsplitColon]
    have hcat : ("nolock".toList : Str) ++ (",addr=".toList : Str) = ("nolock,addr=".toList : Str) := by
      decide
    rw [hcat]

def c5OptsW : CmdlineOptions :=
  { defaultOptions with
      nfsroot := some ((("192.168.42.23").toList) ++ ':' :: ((("/path").toList) ++ ',' :: (("v3,tcp").toList))) }

def c5OptsW2 : CmdlineOptions :=
  { defaultOptions with nfsroot := some ((("192.168.42.23").toList) ++ ':' :: (("/path").toList)) }

/-- Witness for C5 at the claim's own example values. -/
theorem c5_nfs_host_rewrite_witness :
    parse_nfsroot (.error []) c5OptsW =
      .ok { c5OptsW with
              root := some ((("192.168.42.23").toList) ++ ':' :: (("/path").toList))
              rootflags := some (("nolock,".toList) ++ (("v3,tcp").toList) ++ (",addr=".toList) ++
                (("192.168.42.23").toList))
              rootfstype := some ("nfs".toList) } :=
  (c5_nfs_host_rewrite (.error []) c5OptsW c5OptsW2 (("192.168.42.23").toList) (("/path").toList)
    (("v3,tcp").toList) rfl rfl (by decide) (by decide) (by decide)).1

/-! ## Last-occurrence-wins machinery for the token dispatcher -/

/-- The full effect of one successful `parse_option` call on every
`CmdlineOptions` field: a recognized key overwrites its field with the
token's value (success forces the value to be present where one is
required), every other field is untouched. -/
theorem parse_option_ok_effect {σ : Type} {cbs : List (CmdlineCB σ)} {k : Str} {v : Option Str}
    {o : CmdlineOptions} {s s1 : σ} {o1 : CmdlineOptions}
    (h : parse_option cbs k v o s = (s1, .ok o1)) :
    o1.root = (if k = ("root".toList) then v else o.root) ∧
    o1.rootfstype = (if k = ("rootfstype".toList) then v else o.rootfstype) ∧
    o1.rootflags = (if k = ("rootflags".toList) then v else o.rootflags) ∧
    o1.nfsroot = (if k = ("nfsroot".toList) then v else o.nfsroot) ∧
    some o1.init = (if k = ("init".toList) then v else some o.init) ∧
    o1.rootfsflags =
      (if k = ("ro".toList) then true else if k = ("rw".toList) then false else o.rootfsflags) := by
  rw [parse_option.eq_def] at h
  by_cases h1 : k = ("root".toList)
  · rw [if_pos h1] at h
    cases v with
    | none => simp at h
    | some vv =>
      simp only [Prod.mk.injEq, Except.ok.injEq] at h
      obtain ⟨-, ho⟩ := h
      subst ho
      subst h1
      exact ⟨by rw [if_pos rfl], by rw [if_neg (by decide)], by rw [if_neg (by decide)],
        by rw [if_neg (by decide)], by rw [if_neg (by decide)],
        by rw [if_neg (by decide), if_neg (by decide)]⟩
  · rw [if_neg h1] at h
    by_cases h2 : k = ("rootfstype".toList)
    · rw [if_pos h2] at h
      cases v with
      | none => simp at h
      | some vv =>
        simp only [Prod.mk.injEq, Except.ok.injEq] at h
        obtain ⟨-, ho⟩ := h
        subst ho
        subst h2
        exact ⟨by rw [if_neg (by decide)], by rw [if_pos rfl], by rw [if_neg (by decide)],
          by rw [if_neg (by decide)], by rw [if_neg (by decide)],
          by rw [if_neg (by decide), if_neg (by decide)]⟩
    · rw [if_neg h2] at h
      by_cases h3 : k = ("rootflags".toList)
      · rw [if_pos h3] at h
        simp only [Prod.mk.injEq, Except.ok.injEq] at h
        obtain ⟨-, ho⟩ := h
        subst ho
        subst h3
        exact ⟨by rw [if_neg (by decide)], by rw [if_neg (by decide)], by rw [if_pos rfl],
          by rw [if_neg (by decide)], by rw [if_neg (by decide)],
          by rw [if_neg (by decide), if_neg (by decide)]⟩
      · rw [if_neg h3] at h
        by_cases h4 : k = ("ro".toList)
        · rw [if_pos h4] at h
          simp only [Prod.mk.injEq, Except.ok.injEq] at h
          obtain ⟨-, ho⟩ := h
          subst ho
          subst h4
          exact ⟨by rw [if_neg (by decide)], by rw [if_neg (by decide)], by rw [if_neg (by decide)],
            by rw [if_neg (by decide)], by rw [if_neg (by decide)], by rw [if_pos rfl]⟩
        · rw [if_neg h4] at h
          by_cases h5 : k = ("rw".toList)
          · rw [if_pos h5] at h
            simp only [Prod.mk.injEq, Except.ok.injEq] at h
            obtain ⟨-, ho⟩ := h
            subst ho
            subst h5
            exact ⟨by rw [if_neg (by decide)], by rw [if_neg (by decide)],
              by rw [if_neg (by decide)], by rw [if_neg (by decide)], by rw [if_neg (by decide)],
              by rw [if_neg (by decide), if_pos rfl]⟩
          · rw [if_neg h5] at h
            by_cases h6 : k = ("nfsroot".toList)
            · rw [if_pos h6] at h
              cases v with
              | none => simp at h
              | some vv =>
                simp only [Prod.mk.injEq, Except.ok.injEq] at h
                obtain ⟨-, ho⟩ := h
                subst ho
                subst h6
                exact ⟨by rw [if_neg (by decide)], by rw [if_neg (by decide)],
                  by rw [if_neg (by decide)], by rw [if_pos rfl], by rw [if_neg (by decide)],
                  by rw [if_neg (by decide), if_neg (by decide)]⟩
            · rw [if_neg h6] at h
              by_cases h7 : k = ("init".toList)
              · rw [if_pos h7] at h
                cases v with
                | none => simp at h
                | some vv =>
                  simp only [Prod.mk.injEq, Except.ok.injEq] at h
                  obtain ⟨-, ho⟩ := h
                  subst ho
                  subst h7
                  exact ⟨by rw [if_neg (by decide)], by rw [if_neg (by decide)],
                    by rw [if_neg (by decide)], by rw [if_neg (by decide)], by rw [if_pos rfl],
                    by rw [if_neg (by decide), if_neg (by decide)]⟩
              · rw [if_neg h7] at h
                rcases hrc : runCallbacks cbs k v s with ⟨s2, e⟩
                rw [hrc] at h
                cases e with
                | some e => simp at h
                | none =>
                  simp only [Prod.mk.injEq, Except.ok.injEq] at h
                  obtain ⟨-, ho⟩ := h
                  subst ho
                  exact ⟨by rw [if_neg h1], by rw [if_neg h2], by rw [if_neg h3],
                    by rw [if_neg h6], by rw [if_neg h7], by rw [if_neg h4, if_neg h5]⟩


/-- Tracking one `CmdlineOptions` projection through a token list: if every
successful `parse_option` call updates the projection `g` to `valOf t` for
tokens selected by `keyOf` and leaves it alone otherwise, then after a
successful `processTokens` run the projection holds the value of the *last*
selected token (or its initial value if none occurs). -/
theorem processTokens_track {σ α : Type} (cbs : List (CmdlineCB σ))
    (g : CmdlineOptions → α) (keyOf : Str × Option Str → Bool) (valOf : Str × Option Str → α)
    (heff : ∀ (k : Str) (v : Option Str) (o : CmdlineOptions) (s s1 : σ) (o1 : CmdlineOptions),
      parse_option cbs k v o s = (s1, .ok o1) →
      g o1 = if keyOf (k, v) then valOf (k, v) else g o) :
    ∀ (ts : List (Str × Option Str)) (o : CmdlineOptions) (s s1 : σ) (o1 : CmdlineOptions),
      processTokens cbs ts o s = (s1, .ok o1) →
      g o1 = ((ts.filter keyOf).getLast?.map valOf).getD (g o) := by
  intro ts
  induction ts with
  | nil =>
    intro o s s1 o1 h
    simp only [processTokens, Prod.mk.injEq, Except.ok.injEq] at h
    rw [← h.2]
    simp
  | cons t ts ih =>
    intro o s s1 o1 h
    simp only [processTokens] at h
    rcases hp : parse_option cbs t.1 t.2 o s with ⟨s2, r⟩
    rw [hp] at h
    cases r with
    | error e => simp at h
    | ok o2 =>
      have hg : g o2 = if keyOf t then valOf t else g o := heff t.1 t.2 o s s2 o2 hp
      have hind := ih o2 s2 s1 o1 h
      by_cases hk : keyOf t = true
      · rw [List.filter_cons_of_pos hk]
        cases hfe : ts.filter keyOf with
        | nil =>
          rw [hfe] at hind
          simp only [List.getLast?_singleton, Option.map_some, Option.getD_some]
          rw [hind, hg, if_pos hk]
          simp
        | cons a as =>
          rw [hfe] at hind
          rw [List.getLast?_cons_cons]
          obtain ⟨b, hb⟩ : ∃ b, (a :: as).getLast? = some b := by
            have := List.getLast?_isSome (l := a :: as)
            rw [Option.isSome_iff_exists] at this
            exact this.mpr (by simp)
          rw [hb] at hind ⊢
          simpa using hind
      · rw [List.filter_cons_of_neg (by simpa using hk)]
        rw [hind, hg, if_neg (by simpa using hk)]

/-- The scanning loop feeds exactly the tokens of `tokenizeLoop` to
`parse_option`: `fromStringScan` equals `processTokens` over the emitted
token list. -/
theorem fromStringScan_eq_processTokens {σ : Type} (cbs : List (CmdlineCB σ)) (full : Str) :
    ∀ (rest : Str) (i : Nat) (st : ScanSt) (o : CmdlineOptions) (s : σ),
      fromStringScan cbs full rest i st o s = processTokens cbs (tokenizeLoop full rest i st) o s := by
  intro rest
  induction rest with
  | nil => intro i st o s; rfl
  | cons c cs ih =>
    intro i st o s
    simp only [fromStringScan, tokenizeLoop]
    rcases hstep : stepChar full i c st with ⟨tok, st1⟩
    cases tok with
    | none => exact ih (i + 1) st1 o s
    | some t =>
      obtain ⟨k, v⟩ := t
      simp only [processTokens]
      rcases hp : parse_option cbs k v o s with ⟨s2, r⟩
      cases r with
      | error e => rfl
      | ok o2 => exact ih (i + 1) st1 o2 s2

/-- Value of the last token with the given key, if any. -/
def lastTokVal (ts : List (Str × Option Str)) (k : Str) : Option (Option Str) :=
  ((ts.filter (fun t => decide (t.1 = k))).getLast?.map (fun t => t.2))

/-- Whether the last of the `ro`/`rw` tokens is `ro`, if either occurs. -/
def lastRoRw (ts : List (Str × Option Str)) : Option Bool :=
  ((ts.filter (fun t => decide (t.1 = ("ro".toList) ∨ t.1 = ("rw".toList)))).getLast?.map
    (fun t => decide (t.1 = ("ro".toList))))

/-- C8: over the command-line scan (the token dispatch of `parse_option`,
before NFS resolution), the last occurrence of each recognized key wins:
after a successful scan each recognized field equals the value of the last
token for its key (its default when the key never occurs), and the
read-only bit is decided by whichever of `ro`/`rw` comes last. -/
theorem c8_last_occurrence_wins {σ : Type} (cbs : List (CmdlineCB σ)) (cmdline : Str)
    (s0 s1 : σ) (o1 : CmdlineOptions)
    (h : fromStringScan cbs cmdline cmdline 0 initScanSt defaultOptions s0 = (s1, .ok o1)) :
    o1.root = (lastTokVal (tokenize cmdline) ("root".toList)).getD defaultOptions.root ∧
    o1.rootfstype =
      (lastTokVal (tokenize cmdline) ("rootfstype".toList)).getD defaultOptions.rootfstype ∧
    o1.rootflags =
      (lastTokVal (tokenize cmdline) ("rootflags".toList)).getD defaultOptions.rootflags ∧
    o1.nfsroot = (lastTokVal (tokenize cmdline) ("nfsroot".toList)).getD defaultOptions.nfsroot ∧
    some o1.init = (lastTokVal (tokenize cmdline) ("init".toList)).getD (some defaultOptions.init) ∧
    o1.rootfsflags = (lastRoRw (tokenize cmdline)).getD defaultOptions.rootfsflags := by
  rw [fromStringScan_eq_processTokens] at h
  refine ⟨?_, ?_, ?_, ?_, ?_, ?_⟩
  · exact processTokens_track cbs (fun o => o.root) _ _
      (fun k v o s s1 o1 hp => by
        have he := (parse_option_ok_effect hp).1
        by_cases hk : k = ("root".toList) <;> simp [he, hk]) _ _ _ _ _ h
  · exact processTokens_track cbs (fun o => o.rootfstype) _ _
      (fun k v o s s1 o1 hp => by
        have he := (parse_option_ok_effect hp).2.1
        by_cases hk : k = ("rootfstype".toList) <;> simp [he, hk]) _ _ _ _ _ h
  · exact processTokens_track cbs (fun o => o.rootflags) _ _
      (fun k v o s s1 o1 hp => by
        have he := (parse_option_ok_effect hp).2.2.1
        by_cases hk : k = ("rootflags".toList) <;> simp [he, hk]) _ _ _ _ _ h
  · exact processTokens_track cbs (fun o => o.nfsroot) _ _
      (fun k v o s s1 o1 hp => by
        have he := (parse_option_ok_effect hp).2.2.2.1
        by_cases hk : k = ("nfsroot".toList) <;> simp [he, hk]) _ _ _ _ _ h
  · exact processTokens_track cbs (fun o => some o.init) _ _
      (fun k v o s s1 o1 hp => by
        have he := (parse_option_ok_effect hp).2.2.2.2.1
        by_cases hk : k = ("init".toList) <;> simp [he, hk]) _ _ _ _ _ h
  · exact processTokens_track cbs (fun o => o.rootfsflags) _ _
      (fun k v o s s1 o1 hp => by
        have he := (parse_option_ok_effect hp).2.2.2.2.2
        by_cases hk1 : k = ("ro".toList)
        · simp [he, hk1]
        · by_cases hk2 : k = ("rw".toList)
          · simp [he, hk1, hk2]
          · have hcond : ¬(decide ((k, v).1 = ("ro".toList) ∨ (k, v).1 = ("rw".toList)) = true) := by
              simp
              exact ⟨hk1, hk2⟩
            simp only [if_neg hcond, he, if_neg hk1, if_neg hk2]) _ _ _ _ _ h

def c8CmdW : Str := ("root=/dev/a root=/dev/b ro rw\n").toList

def c8OptsW : CmdlineOptions :=
  { defaultOptions with root := some ("/dev/b".toList), rootfsflags := false }

/-- Witness for C8: on `root=/dev/a root=/dev/b ro rw` the scan succeeds and
the result satisfies the last-occurrence characterization (so `root` is
`/dev/b` and the read-only bit is cleared by the final `rw`). -/
theorem c8_last_occurrence_wins_witness :
    c8OptsW.root = (lastTokVal (tokenize c8CmdW) ("root".toList)).getD defaultOptions.root ∧
    c8OptsW.rootfstype =
      (lastTokVal (tokenize c8CmdW) ("rootfstype".toList)).getD defaultOptions.rootfstype ∧
    c8OptsW.rootflags =
      (lastTokVal (tokenize c8CmdW) ("rootflags".toList)).getD defaultOptions.rootflags ∧
    c8OptsW.nfsroot = (lastTokVal (tokenize c8CmdW) ("nfsroot".toList)).getD defaultOptions.nfsroot ∧
    some c8OptsW.init = (lastTokVal (tokenize c8CmdW) ("init".toList)).getD (some defaultOptions.init) ∧
    c8OptsW.rootfsflags = (lastRoRw (tokenize c8CmdW)).getD defaultOptions.rootfsflags := by
  have hEq : fromStringScan (σ := Unit) [] c8CmdW c8CmdW 0 initScanSt defaultOptions () =
      ((), .ok c8OptsW) := by decide
  exact c8_last_occurrence_wins [] c8CmdW () () c8OptsW hEq

/-! ## `wait_for_device` lemmas -/

theorem waitAux_never (ex : Nat → Bool) :
    ∀ (n i : Nat), (∀ k, k < n → ex (i + k) = false) →
      waitAux ex i n = (.error .timeout, n, 5 * n) := by
  intro n
  induction n with
  | zero => intro i _; rfl
  | succ m ih =>
    intro i h
    have h0 : ex i = false := by
      have := h 0 (Nat.succ_pos m)
      simpa using this
    simp only [waitAux]
    rw [if_neg (by rw [h0]; exact Bool.false_ne_true)]
    have hrest : ∀ k, k < m → ex (i + 1 + k) = false := by
      intro k hk
      have heq : i + 1 + k = i + (k + 1) := by omega
      rw [heq]
      exact h (k + 1) (by omega)
    rw [ih (i + 1) hrest]
    simp [Nat.mul_succ]

theorem waitAux_found (ex : Nat → Bool) :
    ∀ (n j i : Nat), j < n → ex (i + j) = true → (∀ k, k < j → ex (i + k) = false) →
      waitAux ex i n = (.ok (), j + 1, 5 * j) := by
  intro n
  induction n with
  | zero => intro j i hj _ _; exact absurd hj (Nat.not_lt_zero j)
  | succ m ih =>
    intro j i hj hex hbefore
    cases j with
    | zero =>
      simp only [waitAux]
      rw [if_pos (by simpa using hex)]
    | succ jm =>
      have h0 : ex i = false := by
        have := hbefore 0 (Nat.succ_pos jm)
        simpa using this
      simp only [waitAux]
      rw [if_neg (by rw [h0]; exact Bool.false_ne_true)]
      have hx : ex (i + 1 + jm) = true := by
        have heq : i + 1 + jm = i + (jm + 1) := by omega
        rw [heq]
        exact hex
      have hb : ∀ k, k < jm → ex (i + 1 + k) = false := by
        intro k hk
        have heq : i + 1 + k = i + (k + 1) := by omega
        rw [heq]
        exact hbefore (k + 1) (by omega)
      rw [ih jm (i + 1) (by omega) hx hb]
      simp [Nat.mul_succ]

theorem waitAux_error_full (ex : Nat → Bool) :
    ∀ (n i : Nat) (e : WaitErr) (c s : Nat),
      waitAux ex i n = (.error e, c, s) → c = n ∧ s = 5 * n := by
  intro n
  induction n with
  | zero =>
    intro i e c s h
    simp only [waitAux, Prod.mk.injEq] at h
    omega
  | succ m ih =>
    intro i e c s h
    simp only [waitAux] at h
    by_cases hx : ex i = true
    · rw [if_pos hx] at h
      simp at h
    · rw [if_neg hx] at h
      simp only [Prod.mk.injEq] at h
      obtain ⟨h1, h2, h3⟩ := h
      rcases hr : waitAux ex (i + 1) m with ⟨r1, r2, r3⟩
      rw [hr] at h1 h2 h3
      simp only at h1 h2 h3
      have := ih (i + 1) e r2 r3 (by rw [hr, h1])
      omega

/-- C7: `wait_for_device` succeeds exactly at the first poll that finds the
path — after `j + 1` polls and `5 * j` ms of sleeping when the path first
exists at poll `j < 1000`; for a path that never appears within the bound it
returns the timeout error after exactly the full 1000 polls and 5000 ms; and
whenever it returns the timeout error it has performed all 1000 polls — never
fewer. -/
theorem c7_wait_for_device_bound (ex : Nat → Bool) (j : Nat) :
    ((∀ i, i < 1000 → ex i = false) → wait_for_device ex = (.error .timeout, 1000, 5000)) ∧
    (j < 1000 → ex j = true → (∀ i, i < j → ex i = false) →
      wait_for_device ex = (.ok (), j + 1, 5 * j)) ∧
    (∀ e c s, wait_for_device ex = (.error e, c, s) → c = 1000 ∧ s = 5000) := by
  refine ⟨?_, ?_, ?_⟩
  · intro h
    have := waitAux_never ex 1000 0 (fun k hk => by simpa using h k hk)
    simpa [wait_for_device] using this
  · intro hj hex hbefore
    have := waitAux_found ex 1000 j 0 hj (by simpa using hex) (fun k hk => by simpa using hbefore k hk)
    simpa [wait_for_device] using this
  · intro e c s h
    have := waitAux_error_full ex 1000 0 e c s (by simpa [wait_for_device] using h)
    omega

/-- Witness for C7: a never-appearing path times out at exactly
(1000, 5000 ms); a path appearing at poll 3 succeeds at (4, 15 ms). -/
theorem c7_wait_for_device_bound_witness :
    wait_for_device (fun _ => false) = (.error .timeout, 1000, 5000) ∧
    wait_for_device (fun i => decide (i = 3)) = (.ok (), 4, 15) := by
  constructor
  · exact (c7_wait_for_device_bound (fun _ => false) 0).1 (fun _ _ => rfl)
  · exact (c7_wait_for_device_bound (fun i => decide (i = 3)) 3).2.1 (by omega) (by decide)
      (fun i hi => by simp; omega)

/-! ## dm-verity message invariants -/

/-- The header-size invariant of the three control messages: `data_start` is
always the header struct's size, `data_size` is the header size for
device-create and suspend and the full header + target-spec + params size
for load-table. -/
def dmMsgsSizesOk : List DmMsg → Prop
  | [.create h1, .load h2 _ _, .suspend h3] =>
    h1.data_start = sizeOfDmIoctl ∧ h1.data_size = sizeOfDmIoctl ∧
    h2.data_start = sizeOfDmIoctl ∧ h2.data_size = sizeOfDmTableLoad ∧
    h3.data_start = sizeOfDmIoctl ∧ h3.data_size = sizeOfDmIoctl ∧
    sizeOfDmTableLoad = sizeOfDmIoctl + sizeOfDmTargetSpec + 1024
  | _ => False

theorem u32TryFrom_ioctl : u32TryFrom sizeOfDmIoctl = some sizeOfDmIoctl := by decide

theorem u32TryFrom_tableLoad : u32TryFrom sizeOfDmTableLoad = some sizeOfDmTableLoad := by decide

/-- `init_header` always succeeds when the uuid fits the 129-byte field, and
sets exactly the documented fields. -/
theorem init_header_eq (hd : DmIoctlM) (size flags : Nat) (u : List Nat)
    (hlen : u.length ≤ hd.uuid.length) :
    init_header hd size flags u =
      .ok { hd with
              version0 := DM_VERSION_MAJOR
              data_size := size
              data_start := sizeOfDmIoctl
              flags := flags
              uuid := u ++ hd.uuid.drop u.length } := by
  rw [init_header, u32TryFrom_ioctl]
  simp only [copyPrefix, if_pos hlen]

/-- The uuid built by `prepare_dmverity` (truncated to `DM_UUID_LEN - 1`
bytes) always fits the uuid field of a default header. -/
theorem init_header_take_eq (size flags : Nat) (s : Str) :
    init_header dmIoctlDefault size flags ((strBytes s).take (min s.length (DM_UUID_LEN - 1))) =
      .ok { dmIoctlDefault with
              version0 := DM_VERSION_MAJOR
              data_size := size
              data_start := sizeOfDmIoctl
              flags := flags
              uuid := ((strBytes s).take (min s.length (DM_UUID_LEN - 1))) ++
                dmIoctlDefault.uuid.drop ((strBytes s).take (min s.length (DM_UUID_LEN - 1))).length } := by
  refine init_header_eq _ _ _ _ ?_
  have h1 : ((strBytes s).take (min s.length (DM_UUID_LEN - 1))).length ≤ DM_UUID_LEN - 1 := by
    rw [List.length_take]
    omega
  have h2 : dmIoctlDefault.uuid.length = DM_UUID_LEN := by
    simp [dmIoctlDefault]
  omega

/-- Every `Ok` result of `prepare_dmverity` is either "not applicable"
(`false`, options untouched, no messages) or "handled" (`true`, with the
three control messages satisfying the size invariants). -/
theorem prepare_dmverity_ok_shape (env : DmEnv) (o : CmdlineOptions)
    (b : Bool) (o1 : CmdlineOptions) (msgs : List DmMsg)
    (h : prepare_dmverity env o = .ok (b, o1, msgs)) :
    (b = false ∧ o1 = o ∧ msgs = []) ∨ (b = true ∧ dmMsgsSizesOk msgs) := by
  simp only [prepare_dmverity] at h
  by_cases h1 : env.verityParamsExists = false
  · rw [if_pos h1] at h
    simp only [Except.ok.injEq, Prod.mk.injEq] at h
    exact Or.inl ⟨h.1.symm, h.2.1.symm, h.2.2.symm⟩
  · rw [if_neg h1] at h
    rcases hroot : o.root with _ | root_device
    · simp only [hroot] at h
      simp only [Except.ok.injEq, Prod.mk.injEq] at h
      exact Or.inl ⟨h.1.symm, h.2.1.symm, h.2.2.symm⟩
    · simp only [hroot] at h
      by_cases h2 : o.rootfstype = some ("nfs".toList) ∨ o.rootfstype = some ("9p".toList)
      · rw [if_pos h2] at h
        simp only [Except.ok.injEq, Prod.mk.injEq] at h
        exact Or.inl ⟨h.1.symm, h.2.1.symm, h.2.2.symm⟩
      · rw [if_neg h2] at h
        rcases hw : (wait_for_device env.deviceExistsAt).1 with e | u
        · simp only [hw] at h
          simp at h
        · simp only [hw] at h
          rcases hread : env.verityParamsRead with er | content
          · simp only [hread] at h
            simp at h
          · simp only [hread] at h
            by_cases h3 : env.controlOpenOk = false
            · rw [if_pos h3] at h
              simp at h
            · rw [if_neg h3] at h
              by_cases h4 : env.randomOk = false
              · rw [if_pos h4] at h
                simp at h
              · rw [if_neg h4] at h
                simp only [u32TryFrom_ioctl, u32TryFrom_tableLoad] at h
                simp only [init_header_take_eq] at h
                repeat' split at h
                all_goals simp at h
                obtain ⟨hb, ho, hm⟩ := h
                right
                refine ⟨hb, ?_⟩
                rw [← hm]
                exact ⟨rfl, rfl, rfl, rfl, rfl, rfl, by decide⟩

/-- C4: whenever `prepare_dmverity` reports "handled", it has sent exactly
the three dm-verity control messages (device-create, load-table, suspend),
each with `data_start` equal to the byte size of the fixed `DmIoctl` header
(312) and `data_size` equal to the byte size of the complete message: the
header size for create and suspend, and the header + target-spec +
1024-byte-parameter size (1376) for load-table. -/
theorem c4_dm_message_sizes (env : DmEnv) (o o1 : CmdlineOptions) (msgs : List DmMsg)
    (h : prepare_dmverity env o = .ok (true, o1, msgs)) : dmMsgsSizesOk msgs := by
  rcases prepare_dmverity_ok_shape env o true o1 msgs h with ⟨hb, -, -⟩ | ⟨-, hsz⟩
  · simp at hb
  · exact hsz

/-- C9: whenever `prepare_dmverity` reports "not applicable" (`Ok(false)`:
missing `/verity-params`, no root selected, or an `nfs`/`9p` filesystem
type), the options passed in are returned unmodified and no control message
has been sent. -/
theorem c9_not_applicable_frame (env : DmEnv) (o o1 : CmdlineOptions) (msgs : List DmMsg)
    (h : prepare_dmverity env o = .ok (false, o1, msgs)) : o1 = o ∧ msgs = [] := by
  rcases prepare_dmverity_ok_shape env o false o1 msgs h with ⟨-, ho, hm⟩ | ⟨hb, -⟩
  · exact ⟨ho, hm⟩
  · simp at hb

/-- A fully successful dm-verity environment (all checks pass, short root
device, well-formed parameters file). -/
def dmEnvOkW : DmEnv :=
  { verityParamsExists := true
    deviceExistsAt := fun _ => true
    verityParamsRead := .ok (("VERITY_DATA_BLOCKS=100\nVERITY_DATA_SECTORS=800\nVERITY_DATA_BLOCK_SIZE=4096\nVERITY_HASH_BLOCK_SIZE=4096\nVERITY_HASH_ALGORITHM=sha256\nVERITY_SALT=ab\nVERITY_ROOT_HASH=cd\n").toList)
    controlOpenOk := true
    randomOk := true
    randomBytes := List.replicate 16 7
    createOk := true
    loadOk := true
    suspendOk := true
    suspendDev := 0 }

/-- Options with a selected block root device. -/
def dmOptsW : CmdlineOptions := { defaultOptions with root := some ("/dev/sda".toList) }

/-- The messages carried by an `Ok` result. -/
def sentMsgs (r : Except DmErr (Bool × CmdlineOptions × List DmMsg)) : List DmMsg :=
  match r with
  | .ok (_, _, m) => m
  | .error _ => []

/-- Whether a result is `Ok(true, ...)`. -/
def okTrueB (r : Except DmErr (Bool × CmdlineOptions × List DmMsg)) : Bool :=
  match r with
  | .ok (true, _, _) => true
  | _ => false

/-- Witness for C4: a concrete fully successful run sends the three
messages with the stated sizes. -/
theorem c4_dm_message_sizes_witness : dmMsgsSizesOk (sentMsgs (prepare_dmverity dmEnvOkW dmOptsW)) := by
  have hok : okTrueB (prepare_dmverity dmEnvOkW dmOptsW) = true := by decide
  rcases hEq : prepare_dmverity dmEnvOkW dmOptsW with e | ⟨b, o1, msgs⟩
  · rw [hEq] at hok
    simp [okTrueB] at hok
  · cases b with
    | false =>
      rw [hEq] at hok
      simp [okTrueB] at hok
    | true =>
      have := c4_dm_message_sizes dmEnvOkW dmOptsW o1 msgs hEq
      simpa [sentMsgs, hEq] using this

/-- A "not applicable" environment: no `/verity-params` file. -/
def dmEnvNaW : DmEnv :=
  { verityParamsExists := false
    deviceExistsAt := fun _ => false
    verityParamsRead := .error []
    controlOpenOk := false
    randomOk := false
    randomBytes := []
    createOk := false
    loadOk := false
    suspendOk := false
    suspendDev := 0 }

/-- Witness for C9: with `/verity-params` absent, the run returns
`Ok(false)` with the options untouched. -/
theorem c9_not_applicable_frame_witness :
    prepare_dmverity dmEnvNaW dmOptsW = .ok (false, dmOptsW, []) ∧
    dmOptsW = dmOptsW ∧ ([] : List DmMsg) = [] :=
  ⟨by decide, c9_not_applicable_frame dmEnvNaW dmOptsW dmOptsW [] (by decide)⟩

/-- C10: `mount_move` propagates a mount-move failure immediately — the
source directory removal is never attempted after a failed move — and the
removal happens exactly when the move succeeded and `cleanup` is set, always
after the move call. -/
theorem c10_mount_move_order (env : MoveEnv) (src dst : Str) (cleanup : Bool) :
    (∀ e, env.mountResult = .error e →
      (mount_move env src dst cleanup).2 = [.moveCall] ∧
      (mount_move env src dst cleanup).1 =
        .error (("Failed to move mount ".toList) ++ src ++ (" -> ".toList) ++ dst ++
          (": ".toList) ++ e)) ∧
    ((MntAction.removeCall ∈ (mount_move env src dst cleanup).2) ↔
      (env.mountResult = .ok () ∧ cleanup = true)) ∧
    (mount_move env src dst cleanup).2.head? = some .moveCall := by
  rcases hm : env.mountResult with e0 | u0
  · refine ⟨?_, ?_, ?_⟩
    · intro e he
      injection he with he2
      subst he2
      simp [mount_move, hm]
    · simp [mount_move, hm]
    · simp [mount_move, hm]
  · cases u0
    cases cleanup
    · refine ⟨?_, ?_, ?_⟩
      · intro e he
        simp at he
      · simp [mount_move, hm]
      · simp [mount_move, hm]
    · rcases hr : env.removeResult with e1 | u1
      · refine ⟨?_, ?_, ?_⟩
        · intro e he
          simp at he
        · simp [mount_move, hm, hr]
        · simp [mount_move, hm, hr]
      · refine ⟨?_, ?_, ?_⟩
        · intro e he
          simp at he
        · simp [mount_move, hm, hr]
        · simp [mount_move, hm, hr]

/-- Witness for C10: a failed move yields only the move call; a successful
move with cleanup reaches the removal. -/
theorem c10_mount_move_order_witness :
    (mount_move ⟨.error [], .ok ()⟩ ("/dev".toList) ("/root/dev".toList) true).2 = [.moveCall] ∧
    (MntAction.removeCall ∈ (mount_move ⟨.ok (), .ok ()⟩ ("/dev".toList) ("/root/dev".toList) true).2) :=
  ⟨((c10_mount_move_order ⟨.error [], .ok ()⟩ ("/dev".toList) ("/root/dev".toList) true).1 [] rfl).1,
   (c10_mount_move_order ⟨.ok (), .ok ()⟩ ("/dev".toList) ("/root/dev".toList) true).2.1.mpr
     ⟨rfl, rfl⟩⟩

/-! ## Concrete findings -/

/-- A minimal verification-parameters file (only the sector count). -/
def contentC1 : Str := ("VERITY_DATA_SECTORS=8\n").toList

/-- A 600-character root device path (no slash, so it is its own basename). -/
def c1Root : Str := List.replicate 600 'a'

/-- Environment for the params-overflow run: every external step succeeds;
only the root device path is long. -/
def dmEnvC1 : DmEnv :=
  { verityParamsExists := true
    deviceExistsAt := fun _ => true
    verityParamsRead := .ok contentC1
    controlOpenOk := true
    randomOk := true
    randomBytes := List.replicate 16 0
    createOk := true
    loadOk := true
    suspendOk := true
    suspendDev := 0 }

/-- Options selecting the long root device. -/
def dmOptsC1 : CmdlineOptions := { defaultOptions with root := some c1Root }

theorem parseVerityParams_contentC1 :
    parseVerityParams contentC1 = ⟨[], ("8".toList), [], [], [], [], []⟩ := by decide

/-- The load-table parameter string for the long root device is 1232 bytes —
larger than the 1024-byte `params` buffer. -/
theorem c1_table_length :
    (strBytes (tableString c1Root (parseVerityParams contentC1))).length = 1232 := by
  rw [parseVerityParams_contentC1]
  have l1 : (("1 ".toList) : Str).length = 2 := by decide
  have l2 : ((" 1 ignore_zero_blocks".toList) : Str).length = 21 := by decide
  have l3 : (("8".toList) : Str).length = 1 := by decide
  simp only [tableString, strBytes, List.length_map, List.length_append, List.length_cons,
    c1Root, List.length_replicate, List.length_nil, l1, l2, l3]

theorem c1_params_copy_none :
    copyPrefix (List.replicate 1024 0)
      (strBytes (tableString c1Root (parseVerityParams contentC1))) = none := by
  rw [copyPrefix, if_neg]
  rw [c1_table_length, List.length_replicate]
  omega

/-- C1 (failing part): the load-table parameter string is copied into the
fixed 1024-byte `params` buffer without any length check
(`table_load_data.params[..table.len()].copy_from_slice(table)`), so a
600-character root device path (embedded twice in the parameter string)
makes the string exceed 1024 bytes and the copy panics: `prepare_dmverity`
faults instead of returning.  (The uuid copy, by contrast, is explicitly
truncated to `DM_UUID_LEN - 1` before copying; the name and type copies are
short constants.) -/
theorem c1_params_copy_unchecked :
    1024 < (strBytes (tableString c1Root (parseVerityParams contentC1))).length ∧
    copyPrefix (List.replicate 1024 0)
      (strBytes (tableString c1Root (parseVerityParams contentC1))) = none ∧
    prepare_dmverity dmEnvC1 dmOptsC1 = .error .panicked := by
  refine ⟨by rw [c1_table_length]; omega, c1_params_copy_none, ?_⟩
  have hroot : dmOptsC1.root = some c1Root := rfl
  have hread : dmEnvC1.verityParamsRead = .ok contentC1 := rfl
  have hw : (wait_for_device dmEnvC1.deviceExistsAt).1 = .ok () := by decide
  simp only [prepare_dmverity]
  rw [if_neg (by decide : ¬(dmEnvC1.verityParamsExists = false))]
  simp only [hroot]
  rw [if_neg (by decide :
    ¬(dmOptsC1.rootfstype = some ("nfs".toList) ∨ dmOptsC1.rootfstype = some ("9p".toList)))]
  simp only [hw, hread]
  rw [if_neg (by decide : ¬(dmEnvC1.controlOpenOk = false))]
  rw [if_neg (by decide : ¬(dmEnvC1.randomOk = false))]
  simp only [u32TryFrom_ioctl, u32TryFrom_tableLoad]
  simp only [init_header_take_eq]
  have hname : copyPrefix dmIoctlDefault.name (strBytes (("verity-rootfs".toList) ++ ['\x00'])) =
      some ((strBytes (("verity-rootfs".toList) ++ ['\x00'])) ++
        dmIoctlDefault.name.drop (strBytes (("verity-rootfs".toList) ++ ['\x00'])).length) := by
    rw [copyPrefix, if_pos (by decide)]
  simp only [hname]
  rw [if_neg (by decide : ¬(dmEnvC1.createOk = false))]
  have hsecs : parseU64 (parseVerityParams contentC1).data_sectors = some 8 := by decide
  simp only [hsecs]
  have htype : copyPrefix (List.replicate DM_MAX_TYPE_NAME 0)
      (strBytes (("verity".toList) ++ ['\x00'])) =
      some ((strBytes (("verity".toList) ++ ['\x00'])) ++
        (List.replicate DM_MAX_TYPE_NAME 0).drop (strBytes (("verity".toList) ++ ['\x00'])).length) := by
    rw [copyPrefix, if_pos (by decide)]
  simp only [htype]
  simp only [c1_params_copy_none]

/-- An extension handler that records the call as index 0 in its state and
fails with a descriptive error. -/
def cbFailing : CmdlineCB (List Nat) :=
  fun s _ _ => (s ++ [0], some (.cbFail ("required value missing".toList)))

/-- An extension handler registered after it, recording index 1. -/
def cbSecond : CmdlineCB (List Nat) := fun s _ _ => (s ++ [1], none)

/-- C2 counterexample: with two registered handlers of which the first
fails on the unrecognized key, the per-key dispatch ends with only the first
handler's invocation recorded — the handler registered after the failing one
is never invoked for that key, contradicting the claim that it still runs. -/
theorem c2_counterexample :
    (parse_option [cbFailing, cbSecond] (("x.custom").toList) (some (("value").toList))
        defaultOptions ([] : List Nat)).1 = [0] ∧
    ¬ (1 ∈ (parse_option [cbFailing, cbSecond] (("x.custom").toList) (some (("value").toList))
        defaultOptions ([] : List Nat)).1) := by decide

theorem runCallbacks_error_stops {σ : Type} (post : List (CmdlineCB σ)) (cb : CmdlineCB σ)
    (key : Str) (value : Option Str) (e : PErr) :
    ∀ (pre : List (CmdlineCB σ)) (s s1 s2 : σ),
      runCallbacks pre key value s = (s1, none) →
      cb s1 key value = (s2, some e) →
      runCallbacks (pre ++ cb :: post) key value s = (s2, some e) := by
  intro pre
  induction pre with
  | nil =>
    intro s s1 s2 hpre hcb
    simp only [runCallbacks, Prod.mk.injEq] at hpre
    obtain ⟨hs, -⟩ := hpre
    subst hs
    simp only [List.nil_append, runCallbacks, hcb]
  | cons c0 cs ih =>
    intro s s1 s2 hpre hcb
    simp only [runCallbacks] at hpre
    rcases hc0 : c0 s key value with ⟨s3, e3⟩
    rw [hc0] at hpre
    cases e3 with
    | some e3 => simp at hpre
    | none =>
      simp only [List.cons_append, runCallbacks, hc0]
      exact ih s3 s1 s2 hpre hcb

/-- Whether a key is one of the seven recognized cmdline option keys. -/
def recognizedKey (k : Str) : Bool :=
  decide (k = ("root".toList)) || decide (k = ("rootfstype".toList)) ||
  decide (k = ("rootflags".toList)) || decide (k = ("ro".toList)) || decide (k = ("rw".toList)) ||
  decide (k = ("nfsroot".toList)) || decide (k = ("init".toList))

/-- C2 (amended): when an extension handler returns an error for an
unrecognized key, that error is propagated immediately — the handlers
registered after it are not invoked (the outcome is independent of `post`),
and `parse_option` fails with the handler's error. -/
theorem c2_error_halts_handlers {σ : Type} (pre post : List (CmdlineCB σ)) (cb : CmdlineCB σ)
    (key : Str) (value : Option Str) (o : CmdlineOptions) (s s1 s2 : σ) (e : PErr)
    (hpre : runCallbacks pre key value s = (s1, none))
    (hcb : cb s1 key value = (s2, some e))
    (hkey : recognizedKey key = false) :
    runCallbacks (pre ++ cb :: post) key value s = (s2, some e) ∧
    parse_option (pre ++ cb :: post) key value o s = (s2, .error e) := by
  have hrun : runCallbacks (pre ++ cb :: post) key value s = (s2, some e) :=
    runCallbacks_error_stops post cb key value e pre s s1 s2 hpre hcb
  have k1 : ¬ key = ("root".toList) := fun hk => absurd (hk ▸ hkey) (by decide)
  have k2 : ¬ key = ("rootfstype".toList) := fun hk => absurd (hk ▸ hkey) (by decide)
  have k3 : ¬ key = ("rootflags".toList) := fun hk => absurd (hk ▸ hkey) (by decide)
  have k4 : ¬ key = ("ro".toList) := fun hk => absurd (hk ▸ hkey) (by decide)
  have k5 : ¬ key = ("rw".toList) := fun hk => absurd (hk ▸ hkey) (by decide)
  have k6 : ¬ key = ("nfsroot".toList) := fun hk => absurd (hk ▸ hkey) (by decide)
  have k7 : ¬ key = ("init".toList) := fun hk => absurd (hk ▸ hkey) (by decide)
  refine ⟨hrun, ?_⟩
  rw [parse_option.eq_def, if_neg k1, if_neg k2, if_neg k3, if_neg k4, if_neg k5, if_neg k6,
    if_neg k7]
  simp only [hrun]

/-- Witness for C2's amended claim, at the counterexample's own input. -/
theorem c2_error_halts_handlers_witness :
    runCallbacks ([] ++ cbFailing :: [cbSecond]) (("x.custom").toList) (some (("value").toList))
        ([] : List Nat) = ([0], some (.cbFail ("required value missing".toList))) ∧
    parse_option ([] ++ cbFailing :: [cbSecond]) (("x.custom").toList) (some (("value").toList))
        defaultOptions ([] : List Nat) =
      ([0], .error (.cbFail ("required value missing".toList))) :=
  c2_error_halts_handlers [] [cbSecond] cbFailing (("x.custom").toList) (some (("value").toList))
    defaultOptions [] [] [0] (.cbFail ("required value missing".toList)) rfl rfl (by decide)

/-- C3: a double-quoted value is not preserved: on `root="a b"` the scanner
resets the value start at every elided character, including the closing
quote, so the parsed value is the text *after* the closing quote — here the
empty string — instead of the quoted text `a b`. -/
theorem c3_quoted_value_lost :
    (from_string (σ := Unit) [] (.error []) (("root=\"a b\"\n").toList) ()).2 =
      .ok { defaultOptions with root := some [] } ∧
    some ([] : Str) ≠ some (("a b").toList) := by decide

/-- A mountinfo with `/oldroot`, `/oldroot/a`, `/oldroot/a/b` (and an
unrelated `/proc` entry, which is filtered out). -/
def mountinfoC6 : Str :=
  ("36 24 0:1 / /oldroot rw\n37 36 0:2 / /oldroot/a rw\n38 37 0:3 / /oldroot/a/b rw\n39 24 0:4 / /proc rw\n").toList

/-- C6: the shutdown path's `umount_root` (systemd.rs) iterates the
`BinaryHeap` with `for`, visiting the heap's underlying array order, which
here unmounts the parent `/oldroot` *before* its child `/oldroot/a` — not
descending path order.  mount.rs's `umount_root` (sort then pop) does
produce the descending order on the same input. -/
theorem c6_shutdown_umount_not_descending :
    systemd_umount_order mountinfoC6 =
      [(("/oldroot/a/b").toList), (("/oldroot").toList), (("/oldroot/a").toList)] ∧
    descendingB (systemd_umount_order mountinfoC6) = false ∧
    mount_umount_order mountinfoC6 =
      [(("/oldroot/a/b").toList), (("/oldroot/a").toList), (("/oldroot").toList)] ∧
    descendingB (mount_umount_order mountinfoC6) = true := by decide
